import Mathlib

/-
Verification of the two example scripts in this repository:
`t0/after.py` (environment loading + embedded inference call) and
`t0/after_http.py` (HTTP chat-completion call).  The Python code is
shallowly embedded: the process environment becomes an association
list of string pairs, `os.environ.setdefault` / direct assignment
become pure list operations, the line parser of the `.env` loader is
translated character-by-character (Python `str.strip`,
`str.startswith('#')`, `'=' in line`, `line.split('=', 1)`), and each
script's observable behaviour (requests issued, lines printed, exit
code, client acquisitions and releases) is recorded in an explicit
outcome structure, parametrised by a mocked gateway response.
-/

set_option autoImplicit false

namespace Rak

/-! ## Python string primitives used by the loader -/

/-- Whitespace characters removed by Python `str.strip()` (ASCII part). -/
def isPySpace (c : Char) : Bool :=
  c = ' ' || c = '\t' || c = '\n' || c = '\r' || c = '\x0b' || c = '\x0c'

/-- Strip leading whitespace from a character list (left part of `str.strip`). -/
def lstripL (l : List Char) : List Char := l.dropWhile isPySpace

/-- Strip trailing whitespace from a character list (right part of `str.strip`). -/
def rstripL (l : List Char) : List Char := (l.reverse.dropWhile isPySpace).reverse

/-- Python `line.strip()` on a character list. -/
def stripL (l : List Char) : List Char := rstripL (lstripL l)

/-- Python `s.strip()` on strings. -/
def pyStrip (s : String) : String := String.mk (stripL s.toList)

/-- Python `line.startswith('#')` on a character list. -/
def startsHash : List Char → Bool
  | [] => false
  | c :: _ => c == '#'

/-- The part of the line before the first `=`
(first component of Python `line.split('=', 1)`). -/
def splitKeyL (l : List Char) : List Char := l.takeWhile (fun c => c != '=')

/-- The part of the line after the first `=`
(second component of Python `line.split('=', 1)`). -/
def splitValL (l : List Char) : List Char := (l.dropWhile (fun c => c != '=')).drop 1

/-! ## The process environment (`os.environ`) -/

/-- The process environment: an association of keys to values, each key at
most once (we never introduce duplicates). -/
abbrev Env := List (String × String)

/-- Python `os.environ.get` / key lookup. -/
def getEnv : Env → String → Option String
  | [], _ => none
  | (k', v') :: rest, k => if k' = k then some v' else getEnv rest k

/-- Python `os.environ.setdefault(k, v)`: keep an existing binding, otherwise
add the new one. -/
def setdefault (e : Env) (k v : String) : Env :=
  match getEnv e k with
  | some _ => e
  | none => e ++ [(k, v)]

/-- Python `os.environ[k] = v`: overwrite an existing binding or add one. -/
def envSet : Env → String → String → Env
  | [], k, v => [(k, v)]
  | (k', v') :: rest, k, v =>
      if k' = k then (k, v) :: rest else (k', v') :: envSet rest k v

/-- Python truthiness of `os.getenv(k)`: `None` and the empty string are
falsy, every other string is truthy. -/
def optTruthy : Option String → Bool
  | none => false
  | some s => !(s == "")

/-! ## The `.env` loader of `after.py` (lines 6-20) -/

/-- The filter condition of `after.py` line 11 on the stripped line:
`line and not line.startswith('#') and '=' in line`. -/
def acceptLine (line : List Char) : Bool :=
  !line.isEmpty && !startsHash line && line.contains '='

/-- The key extracted from a raw line: strip the line, split at the first
`=`, strip the key part (`after.py` lines 10-13). -/
def keyOf (raw : String) : String := String.mk (stripL (splitKeyL (stripL raw.toList)))

/-- The value extracted from a raw line: strip the line, split at the first
`=`, strip the value part (`after.py` lines 10-13). -/
def valOf (raw : String) : String := String.mk (stripL (splitValL (stripL raw.toList)))

/-- One iteration of the loading loop of `after.py` lines 9-13:
strip the line, and if it is accepted, `setdefault` its key to its value. -/
def processLine (e : Env) (raw : String) : Env :=
  if acceptLine (stripL raw.toList) then setdefault e (keyOf raw) (valOf raw) else e

/-- The whole loading loop (`for line in f` of `after.py` lines 9-13). -/
def loadLines (e : Env) (lines : List String) : Env := lines.foldl processLine e

/-- The guarded file load of `after.py` lines 7-13: `none` models an absent
`.env` file (`env_file.exists()` is false), `some lines` its contents. -/
def loadFile : Option (List String) → Env → Env
  | none, e => e
  | some lines, e => loadLines e lines

/-- One occurrence of the derivation of `after.py` lines 16-17 (repeated
verbatim at lines 19-20): if `GOOGLE_AI_STUDIO_API_KEY` is falsy and
`GEMINI_API_KEY` truthy, assign the latter's value to the former. -/
def deriveGoogleKey (e : Env) : Env :=
  if !optTruthy (getEnv e "GOOGLE_AI_STUDIO_API_KEY")
      && optTruthy (getEnv e "GEMINI_API_KEY") then
    envSet e "GOOGLE_AI_STUDIO_API_KEY" ((getEnv e "GEMINI_API_KEY").getD "")
  else e

/-- The complete environment-setup phase of `after.py` lines 6-20: the
guarded file load followed by the twice-repeated derivation. -/
def envSetup (file : Option (List String)) (e : Env) : Env :=
  deriveGoogleKey (deriveGoogleKey (loadFile file e))

/-- The value of the first accepted line of the file whose parsed key is
`k`, if any.  With `setdefault`, this is the value a previously-unset key
ends up with after the loading loop. -/
def firstValueFor : List String → String → Option String
  | [], _ => none
  | raw :: rest, k =>
      if acceptLine (stripL raw.toList) && (keyOf raw == k) then some (valOf raw)
      else firstValueFor rest k

/-! ## Messages and requests -/

/-- A role-tagged chat message, as in both scripts' `messages` lists. -/
structure Message where
  role : String
  content : String
  deriving DecidableEq

/-! ## The embedded inference caller of `after.py` (lines 23-38) -/

/-- One call to `client.inference`: a function name and a message list. -/
structure InferenceCall where
  function_name : String
  messages : List Message
  deriving DecidableEq

/-- The single inference call issued by `after.py` lines 27-37. -/
def haikuCall : InferenceCall :=
  { function_name := "generate_haiku",
    messages := [{ role := "user",
                   content := "Write a haiku about artificial intelligence." }] }

/-- Observable trace of the embedded script: inference calls issued,
client releases performed (`__exit__` invocations), lines printed. -/
structure EmbTrace where
  calls : List InferenceCall
  releases : Nat
  prints : List String
  deriving DecidableEq

/-- The empty trace at script start. -/
def emptyTrace : EmbTrace := { calls := [], releases := 0, prints := [] }

/-- Python `with`-statement semantics for a built client: run the body,
then release the client exactly once, on the normal path and on the
exceptional path alike (`TensorZeroGateway.build_embedded ... as client`,
`after.py` lines 23-26). -/
def withClient {E R : Type} (body : EmbTrace → EmbTrace × Except E R)
    (t : EmbTrace) : EmbTrace × Except E R :=
  match body t with
  | (t', res) => ({ t' with releases := t'.releases + 1 }, res)

/-- The body of the `with`-block, `after.py` lines 27-38: issue the one
inference call; if it returns, print the response; if it raises, the
print is skipped and the exception propagates.  The gateway is mocked by
`infer`, which either returns a response or raises `E`. -/
def scriptBody {E : Type} (infer : InferenceCall → Except E String)
    (t : EmbTrace) : EmbTrace × Except E String :=
  match infer haikuCall with
  | Except.ok r =>
      ({ t with calls := t.calls ++ [haikuCall], prints := t.prints ++ [r] },
       Except.ok r)
  | Except.error err =>
      ({ t with calls := t.calls ++ [haikuCall] }, Except.error err)

/-- The whole `with`-block of `after.py` lines 23-38, from the empty trace. -/
def afterEmbedded {E : Type} (infer : InferenceCall → Except E String) :
    EmbTrace × Except E String :=
  withClient (scriptBody infer) emptyTrace

/-! ## The HTTP inference caller of `after_http.py` -/

/-- One chat-completion request (`client.chat.completions.create`). -/
structure ChatRequest where
  model : String
  messages : List Message
  deriving DecidableEq

/-- The mocked gateway's answer: the text content at
`choices[0].message.content` and the count at `usage.total_tokens`. -/
structure ChatResponse where
  content : String
  totalTokens : Nat
  deriving DecidableEq

/-- Observable outcome of the HTTP script: lines printed, exit status,
HTTP clients constructed, chat-completion requests sent. -/
structure HttpOutcome where
  printed : List String
  exitCode : Nat
  clientsBuilt : Nat
  requests : List ChatRequest
  deriving DecidableEq

/-- The single request sent by `after_http.py` lines 28-33. -/
def jokeRequest : ChatRequest :=
  { model := "tensorzero::model_name::gemini_flash_lite",
    messages := [{ role := "user", content := "Write a software engineer joke" }] }

/-- The whole of `after_http.py`, with the gateway mocked by `respond`:
if `OPENAI_API_KEY` is falsy (line 10), print the two hint lines and exit
with status 1 before building any client; otherwise build the client,
send the one request and print the banner, the key prefix, the content
and the token count (lines 17-39). -/
def afterHttp (e : Env) (respond : ChatRequest → ChatResponse) : HttpOutcome :=
  if optTruthy (getEnv e "OPENAI_API_KEY") then
    let key := (getEnv e "OPENAI_API_KEY").getD ""
    let resp := respond jokeRequest
    { printed := ["🤖 Calling OpenAI via TensorZero (Auth Enabled)...",
                  "🔐 Using TensorZero API key: " ++ key.take 15 ++ "...",
                  "",
                  resp.content,
                  "",
                  "✅ Tokens: " ++ toString resp.totalTokens,
                  "🔐 Auth: Enabled ✓"],
      exitCode := 0,
      clientsBuilt := 1,
      requests := [jokeRequest] }
  else
    { printed := ["⚠️  Set OPENAI_API_KEY environment variable",
                  "   Format: " ++ "sk-t0-<public_id>-<long_key>"],
      exitCode := 1,
      clientsBuilt := 0,
      requests := [] }

/-! ## Spec claims stated verbatim, for the ones the code does not meet -/

/-- The spec's env-file property as stated: for every accepted line, a key
absent from the starting environment ends up bound to that line's value,
and a present key keeps its original value.  (Quantifies over files with
duplicate keys too.) -/
def claimFileLoading : Prop :=
  ∀ (e : Env) (lines : List String) (raw : String),
    raw ∈ lines → acceptLine (stripL raw.toList) = true →
    (getEnv e (keyOf raw) = none →
      getEnv (loadLines e lines) (keyOf raw) = some (valOf raw)) ∧
    (∀ v0, getEnv e (keyOf raw) = some v0 →
      getEnv (loadLines e lines) (keyOf raw) = some v0)

/-- The spec's derived-secret property as stated: whenever, after file
loading, `GEMINI_API_KEY` is bound to some value `X` and
`GOOGLE_AI_STUDIO_API_KEY` is unbound, the setup phase ends with
`GOOGLE_AI_STUDIO_API_KEY` bound to `X`.  (Quantifies over `X = ""` too.) -/
def claimDerivedSecret : Prop :=
  ∀ (file : Option (List String)) (e : Env) (X : String),
    getEnv (loadFile file e) "GEMINI_API_KEY" = some X →
    getEnv (loadFile file e) "GOOGLE_AI_STUDIO_API_KEY" = none →
    getEnv (envSetup file e) "GOOGLE_AI_STUDIO_API_KEY" = some X

/-- The spec's set-if-absent invariant as stated: every key present before
the setup phase keeps its exact value, the empty string included. -/
def claimSetIfAbsent : Prop :=
  ∀ (file : Option (List String)) (e : Env) (k v0 : String),
    getEnv e k = some v0 → getEnv (envSetup file e) k = some v0

/-- The spec's HTTP-happy-path property as stated: whenever
`OPENAI_API_KEY` is set (to any value, the empty string included), the
script sends exactly one request, with the fixed model identifier and a
single user message, and prints the mocked content and, later, the token
count. -/
def claimHttpWithKey : Prop :=
  ∀ (e : Env) (respond : ChatRequest → ChatResponse),
    (getEnv e "OPENAI_API_KEY").isSome = true →
    (afterHttp e respond).requests.length = 1 ∧
    (∀ r ∈ (afterHttp e respond).requests,
      r.model = "tensorzero::model_name::gemini_flash_lite" ∧
      r.messages.map Message.role = ["user"]) ∧
    (∃ i j, i < j ∧
      (afterHttp e respond).printed.get? i = some (respond jokeRequest).content ∧
      (afterHttp e respond).printed.get? j =
        some ("✅ Tokens: " ++ toString (respond jokeRequest).totalTokens))

/-! ## Environment lemmas -/

theorem getEnv_append (e₁ e₂ : Env) (k : String) :
    getEnv (e₁ ++ e₂) k =
      match getEnv e₁ k with
      | some v => some v
      | none => getEnv e₂ k := by
  induction e₁ with
  | nil => simp [getEnv]
  | cons p rest ih =>
      obtain ⟨k', v'⟩ := p
      by_cases h : k' = k <;> simp [getEnv, h, ih]

theorem getEnv_envSet_self (e : Env) (k v : String) :
    getEnv (envSet e k v) k = some v := by
  induction e with
  | nil => simp [envSet, getEnv]
  | cons p rest ih =>
      obtain ⟨k', v'⟩ := p
      by_cases h : k' = k <;> simp [envSet, getEnv, h, ih]

theorem getEnv_envSet_ne (e : Env) (k v k' : String) (h : k' ≠ k) :
    getEnv (envSet e k v) k' = getEnv e k' := by
  induction e with
  | nil => simp [envSet, getEnv, Ne.symm h]
  | cons p rest ih =>
      obtain ⟨k₀, v₀⟩ := p
      by_cases h₀ : k₀ = k
      · subst h₀
        simp [envSet, getEnv, Ne.symm h]
      · simp only [envSet, if_neg h₀]
        by_cases h₁ : k₀ = k' <;> simp [getEnv, h₁, ih]

theorem getEnv_setdefault_of_some (e : Env) (k v0 k' v' : String)
    (h : getEnv e k = some v0) :
    getEnv (setdefault e k' v') k = some v0 := by
  unfold setdefault
  cases hk' : getEnv e k'
  · rw [getEnv_append, h]
  · exact h

theorem getEnv_setdefault_ne (e : Env) (k k' v' : String) (h : k ≠ k') :
    getEnv (setdefault e k' v') k = getEnv e k := by
  unfold setdefault
  cases hk' : getEnv e k'
  · rw [getEnv_append]
    cases hk : getEnv e k
    · simp [getEnv, Ne.symm h]
    · rfl
  · rfl

theorem getEnv_setdefault_self_of_none (e : Env) (k v : String)
    (h : getEnv e k = none) :
    getEnv (setdefault e k v) k = some v := by
  unfold setdefault
  rw [h, getEnv_append, h]
  simp [getEnv]

theorem loadLines_cons (e : Env) (raw : String) (rest : List String) :
    loadLines e (raw :: rest) = loadLines (processLine e raw) rest := rfl

theorem getEnv_processLine_of_some (e : Env) (raw k v0 : String)
    (h : getEnv e k = some v0) :
    getEnv (processLine e raw) k = some v0 := by
  unfold processLine
  by_cases ha : acceptLine (stripL raw.toList) = true
  · rw [if_pos ha]
    exact getEnv_setdefault_of_some e k v0 _ _ h
  · rw [if_neg ha]
    exact h

theorem getEnv_loadLines_of_some (lines : List String) (e : Env) (k v0 : String)
    (h : getEnv e k = some v0) :
    getEnv (loadLines e lines) k = some v0 := by
  induction lines generalizing e with
  | nil => exact h
  | cons raw rest ih =>
      rw [loadLines_cons]
      exact ih _ (getEnv_processLine_of_some e raw k v0 h)

theorem getEnv_loadLines_of_none (lines : List String) (e : Env) (k : String)
    (h : getEnv e k = none) :
    getEnv (loadLines e lines) k = firstValueFor lines k := by
  induction lines generalizing e with
  | nil => exact h
  | cons raw rest ih =>
      rw [loadLines_cons]
      by_cases ha : acceptLine (stripL raw.toList) = true
      · by_cases hk : keyOf raw = k
        · subst hk
          have h1 : getEnv (processLine e raw) (keyOf raw) = some (valOf raw) := by
            unfold processLine
            rw [if_pos ha]
            exact getEnv_setdefault_self_of_none e _ _ h
          rw [getEnv_loadLines_of_some rest _ _ _ h1]
          simp [firstValueFor, show acceptLine (stripL raw.data) = true from ha]
        · have h1 : getEnv (processLine e raw) k = none := by
            unfold processLine
            rw [if_pos ha]
            rw [getEnv_setdefault_ne e k _ _ (fun hh => hk hh.symm)]
            exact h
          rw [ih _ h1]
          simp [firstValueFor, show acceptLine (stripL raw.data) = true from ha, hk]
      · have h1 : processLine e raw = e := by
          unfold processLine
          rw [if_neg ha]
        rw [h1, ih _ h]
        have ha' : acceptLine (stripL raw.toList) = false := by simpa using ha
        simp [firstValueFor, show acceptLine (stripL raw.data) = false from ha']

/-! ## Derivation lemmas -/

theorem deriveGoogleKey_of_guard_false (e : Env)
    (h : (!optTruthy (getEnv e "GOOGLE_AI_STUDIO_API_KEY")
      && optTruthy (getEnv e "GEMINI_API_KEY")) = false) :
    deriveGoogleKey e = e := by
  unfold deriveGoogleKey
  simp [h]

theorem deriveGoogleKey_of_guard_true (e : Env)
    (h : (!optTruthy (getEnv e "GOOGLE_AI_STUDIO_API_KEY")
      && optTruthy (getEnv e "GEMINI_API_KEY")) = true) :
    deriveGoogleKey e
      = envSet e "GOOGLE_AI_STUDIO_API_KEY" ((getEnv e "GEMINI_API_KEY").getD "") := by
  unfold deriveGoogleKey
  rw [if_pos h]

theorem getEnv_deriveGoogleKey_of_some (e : Env) (k v0 : String)
    (h : getEnv e k = some v0)
    (hk : k = "GOOGLE_AI_STUDIO_API_KEY" → v0 ≠ "") :
    getEnv (deriveGoogleKey e) k = some v0 := by
  by_cases hg : (!optTruthy (getEnv e "GOOGLE_AI_STUDIO_API_KEY")
      && optTruthy (getEnv e "GEMINI_API_KEY")) = true
  · rw [deriveGoogleKey_of_guard_true e hg]
    by_cases hkk : k = "GOOGLE_AI_STUDIO_API_KEY"
    · exfalso
      have h1 : (!optTruthy (getEnv e "GOOGLE_AI_STUDIO_API_KEY")) = true := by
        simp only [Bool.and_eq_true] at hg
        exact hg.1
      rw [← hkk, h] at h1
      have h2 : v0 = "" := by simpa [optTruthy] using h1
      exact hk hkk h2
    · rw [getEnv_envSet_ne _ _ _ _ hkk]
      exact h
  · rw [deriveGoogleKey_of_guard_false e (by simpa using hg)]
    exact h

/-! ## String-stripping and splitting lemmas -/

theorem dropWhile_append_cons (p : Char → Bool) (a b : List Char) (c : Char)
    (hc : p c = false) :
    List.dropWhile p (a ++ c :: b) = List.dropWhile p a ++ c :: b := by
  induction a with
  | nil => simp [List.dropWhile, hc]
  | cons x a' ih =>
      by_cases hx : p x = true <;> simp [List.dropWhile, hx, ih]

theorem takeWhile_append_of_all (p : Char → Bool) (a b : List Char) (c : Char)
    (hc : p c = false) (ha : ∀ x ∈ a, p x = true) :
    List.takeWhile p (a ++ c :: b) = a := by
  induction a with
  | nil => simp [List.takeWhile, hc]
  | cons x a' ih =>
      have hx : p x = true := ha x (List.mem_cons_self x a')
      simp only [List.cons_append, List.takeWhile_cons, hx, if_true]
      rw [ih (fun y hy => ha y (List.mem_cons_of_mem x hy))]

theorem dropWhile_append_of_all (p : Char → Bool) (a b : List Char) (c : Char)
    (hc : p c = false) (ha : ∀ x ∈ a, p x = true) :
    List.dropWhile p (a ++ c :: b) = c :: b := by
  induction a with
  | nil => simp [List.dropWhile, hc]
  | cons x a' ih =>
      have hx : p x = true := ha x (List.mem_cons_self x a')
      simp only [List.cons_append, List.dropWhile_cons, hx, if_true]
      exact ih (fun y hy => ha y (List.mem_cons_of_mem x hy))

theorem dropWhile_dropWhile (p : Char → Bool) (l : List Char) :
    List.dropWhile p (List.dropWhile p l) = List.dropWhile p l := by
  induction l with
  | nil => rfl
  | cons x t ih =>
      by_cases hx : p x = true <;> simp [List.dropWhile, hx, ih]

theorem head_dropWhile_false (p : Char → Bool) (l : List Char) (c : Char)
    (m : List Char) (h : List.dropWhile p l = c :: m) : p c = false := by
  induction l with
  | nil => simp [List.dropWhile] at h
  | cons x t ih =>
      by_cases hx : p x = true
      · rw [List.dropWhile_cons_of_pos hx] at h
        exact ih h
      · rw [List.dropWhile_cons_of_neg hx] at h
        obtain ⟨rfl, rfl⟩ := List.cons.injEq .. ▸ h
        · simpa using hx

theorem rstripL_append_cons (a b : List Char) (c : Char)
    (hc : isPySpace c = false) :
    rstripL (a ++ c :: b) = a ++ c :: rstripL b := by
  unfold rstripL
  rw [List.reverse_append, List.reverse_cons, List.append_assoc,
    List.singleton_append, dropWhile_append_cons _ _ _ _ hc,
    List.reverse_append, List.reverse_cons, List.reverse_reverse]
  simp

theorem rstripL_cons (c : Char) (m : List Char) (hc : isPySpace c = false) :
    rstripL (c :: m) = c :: rstripL m := by
  simpa using rstripL_append_cons [] m c hc

theorem rstripL_rstripL (l : List Char) : rstripL (rstripL l) = rstripL l := by
  unfold rstripL
  rw [List.reverse_reverse, dropWhile_dropWhile]

theorem stripL_rstripL (l : List Char) : stripL (rstripL l) = stripL l := by
  cases hl : lstripL l with
  | nil =>
      have hall : ∀ x ∈ l, isPySpace x = true := by
        intro x hx
        exact List.dropWhile_eq_nil_iff.mp hl x hx
      have h1 : rstripL l = [] := by
        unfold rstripL
        rw [List.dropWhile_eq_nil_iff.mpr
          (fun x hx => hall x (List.mem_reverse.mp hx))]
        rfl
      rw [h1]
      show stripL [] = stripL l
      unfold stripL
      rw [hl]
      rfl
  | cons c m =>
      have hc : isPySpace c = false := head_dropWhile_false _ _ _ _ hl
      have hdecomp : l = l.takeWhile isPySpace ++ c :: m := by
        conv_lhs => rw [← List.takeWhile_append_dropWhile isPySpace l]
        rw [show List.dropWhile isPySpace l = c :: m from hl]
      have hall : ∀ x ∈ l.takeWhile isPySpace, isPySpace x = true :=
        fun x hx => List.mem_takeWhile_imp hx
      have h1 : rstripL l = l.takeWhile isPySpace ++ c :: rstripL m := by
        conv_lhs => rw [hdecomp]
        exact rstripL_append_cons _ _ _ hc
      have h2 : lstripL (rstripL l) = c :: rstripL m := by
        rw [h1]
        exact dropWhile_append_of_all _ _ _ _ hc hall
      show rstripL (lstripL (rstripL l)) = rstripL (lstripL l)
      rw [h2, hl, rstripL_cons c _ hc, rstripL_cons c m hc, rstripL_rstripL]

theorem mem_of_mem_lstripL (l : List Char) (x : Char) (hx : x ∈ lstripL l) :
    x ∈ l :=
  (List.dropWhile_sublist isPySpace).mem hx

/-- Splitting an accepted line at its first `=`: if the key part `k`
contains no `=`, the parsed key is `k` stripped and the parsed value is
everything after the separator, stripped (with its inner characters,
further `=` included, preserved). -/
theorem splitKeyL_of_no_eq (k rest : List Char) (hk : '=' ∉ k) :
    stripL (splitKeyL (stripL (k ++ '=' :: rest))) = stripL k ∧
    stripL (splitValL (stripL (k ++ '=' :: rest))) = stripL rest := by
  have heq : isPySpace '=' = false := by decide
  have hline : stripL (k ++ '=' :: rest) = lstripL k ++ '=' :: rstripL rest := by
    unfold stripL
    show rstripL (List.dropWhile isPySpace (k ++ '=' :: rest)) = _
    rw [dropWhile_append_cons _ _ _ _ heq]
    exact rstripL_append_cons _ _ _ heq
  have hallq : ∀ x ∈ lstripL k, (x != '=') = true := by
    intro x hx
    have : x ∈ k := mem_of_mem_lstripL k x hx
    have hne : x ≠ '=' := fun hh => hk (hh ▸ this)
    simpa using hne
  constructor
  · rw [hline]
    unfold splitKeyL
    rw [takeWhile_append_of_all (fun c => c != '=') (lstripL k) (rstripL rest) '='
      (by decide) hallq]
    show rstripL (List.dropWhile isPySpace (List.dropWhile isPySpace k)) = stripL k
    rw [dropWhile_dropWhile]
    rfl
  · rw [hline]
    unfold splitValL
    rw [dropWhile_append_of_all (fun c => c != '=') (lstripL k) (rstripL rest) '='
      (by decide) hallq]
    show stripL (rstripL rest) = stripL rest
    exact stripL_rstripL rest

/-! ## Claim theorems: the environment loader -/

/-- C1 (counterexample): the spec's env-file property as stated fails when
the file binds the same key twice: with file `K=a`, `K=b` and an empty
starting environment, the line `K=b` is well-formed and `K` was unset,
yet after loading `K` maps to `a`, not `b`. -/
theorem file_loading_claim_false : ¬ claimFileLoading := by
  intro h
  have h1 := (h [] ["K=a", "K=b"] "K=b" (by decide) (by decide)).1 (by decide)
  exact absurd h1 (by decide)

/-- C1 (amended): for every key `k`, if `k` was not already present in the
environment then after loading it maps to the value of the first accepted
`KEY=VALUE` line of the file whose key is `k` (so for each key the first
line wins); if `k` was already present, its original value is preserved
unchanged. -/
theorem env_file_load_first_line_wins (e : Env) (lines : List String) (k : String) :
    (getEnv e k = none → getEnv (loadLines e lines) k = firstValueFor lines k) ∧
    (∀ v0, getEnv e k = some v0 → getEnv (loadLines e lines) k = some v0) :=
  ⟨getEnv_loadLines_of_none lines e k,
   fun v0 h => getEnv_loadLines_of_some lines e k v0 h⟩

/-- C1 (witness): the amended claim evaluated on a concrete environment and
file. -/
theorem env_file_load_first_line_wins_witness :
    getEnv (loadLines [("A", "0")] ["B=1", "B=2", "A=9"]) "B"
      = firstValueFor ["B=1", "B=2", "A=9"] "B" ∧
    getEnv (loadLines [("A", "0")] ["B=1", "B=2", "A=9"]) "A" = some "0" :=
  ⟨(env_file_load_first_line_wins [("A", "0")] ["B=1", "B=2", "A=9"] "B").1 (by decide),
   (env_file_load_first_line_wins [("A", "0")] ["B=1", "B=2", "A=9"] "A").2 "0" (by decide)⟩

/-- C4 (counterexample): the spec's derived-secret rule as stated fails for
the empty value: with `GEMINI_API_KEY` set to `""` and
`GOOGLE_AI_STUDIO_API_KEY` unset, the guard `os.getenv("GEMINI_API_KEY")`
is falsy, so `GOOGLE_AI_STUDIO_API_KEY` stays unset instead of becoming
`""`. -/
theorem derived_secret_claim_false : ¬ claimDerivedSecret := by
  intro h
  have h1 := h none [("GEMINI_API_KEY", "")] "" (by decide) (by decide)
  exact absurd h1 (by decide)

/-- C4 (amended): for every starting environment and env file such that,
after file loading, `GEMINI_API_KEY` is set to some non-empty value `X`
and `GOOGLE_AI_STUDIO_API_KEY` is unset, the setup phase ends with
`GOOGLE_AI_STUDIO_API_KEY` equal to `X`; the rule runs after the env-file
lines, so a `GEMINI_API_KEY` value taken from the file also feeds it. -/
theorem derived_secret_copies_nonempty (file : Option (List String)) (e : Env)
    (X : String) (hX : X ≠ "")
    (hm : getEnv (loadFile file e) "GEMINI_API_KEY" = some X)
    (hg : getEnv (loadFile file e) "GOOGLE_AI_STUDIO_API_KEY" = none) :
    getEnv (envSetup file e) "GOOGLE_AI_STUDIO_API_KEY" = some X := by
  unfold envSetup
  have hguard : (!optTruthy (getEnv (loadFile file e) "GOOGLE_AI_STUDIO_API_KEY")
      && optTruthy (getEnv (loadFile file e) "GEMINI_API_KEY")) = true := by
    rw [hm, hg]
    simp [optTruthy, hX]
  have hstep : deriveGoogleKey (loadFile file e)
      = envSet (loadFile file e) "GOOGLE_AI_STUDIO_API_KEY" X := by
    rw [deriveGoogleKey_of_guard_true _ hguard, hm]
    rfl
  have hgoog : getEnv (envSet (loadFile file e) "GOOGLE_AI_STUDIO_API_KEY" X)
      "GOOGLE_AI_STUDIO_API_KEY" = some X := getEnv_envSet_self _ _ _
  rw [hstep, deriveGoogleKey_of_guard_false _ (by simp [hgoog, optTruthy, hX])]
  exact hgoog

/-- C4 (witness): a `GEMINI_API_KEY` taken from the env file feeds the
derivation. -/
theorem derived_secret_copies_nonempty_witness :
    getEnv (envSetup (some ["GEMINI_API_KEY=g"]) []) "GOOGLE_AI_STUDIO_API_KEY"
      = some "g" :=
  derived_secret_copies_nonempty (some ["GEMINI_API_KEY=g"]) [] "g"
    (by decide) (by decide) (by decide)

/-- C5 (counterexample): the spec's set-if-absent invariant as stated fails
for a pre-existing empty value: starting from
`GOOGLE_AI_STUDIO_API_KEY=""` and `GEMINI_API_KEY="g"` with no env file,
the derivation treats the empty value as unset and overwrites it with
`"g"`. -/
theorem set_if_absent_claim_false : ¬ claimSetIfAbsent := by
  intro h
  have h1 := h none [("GOOGLE_AI_STUDIO_API_KEY", ""), ("GEMINI_API_KEY", "g")]
    "GOOGLE_AI_STUDIO_API_KEY" "" (by decide)
  exact absurd h1 (by decide)

/-- C5 (amended): every key present in the environment before the setup
phase keeps its exact value through the phase, except
`GOOGLE_AI_STUDIO_API_KEY` when its pre-existing value is the empty
string, which the derivation may overwrite. -/
theorem env_setup_preserves_existing (file : Option (List String)) (e : Env)
    (k v0 : String) (h : getEnv e k = some v0)
    (hk : k = "GOOGLE_AI_STUDIO_API_KEY" → v0 ≠ "") :
    getEnv (envSetup file e) k = some v0 := by
  unfold envSetup
  have h1 : getEnv (loadFile file e) k = some v0 := by
    cases file with
    | none => exact h
    | some lines => exact getEnv_loadLines_of_some lines e k v0 h
  exact getEnv_deriveGoogleKey_of_some _ _ _
    (getEnv_deriveGoogleKey_of_some _ _ _ h1 hk) hk

/-- C5 (witness): a pre-existing key survives the whole setup phase even
when the file tries to rebind it. -/
theorem env_setup_preserves_existing_witness :
    getEnv (envSetup (some ["A=2"]) [("A", "1")]) "A" = some "1" :=
  env_setup_preserves_existing (some ["A=2"]) [("A", "1")] "A" "1"
    (by decide) (by decide)

/-- C6: a line that is blank (strips to nothing), starts with `#`, or
contains no `=` leaves the entire environment mapping unchanged, and the
loader is a total function, so no error is raised. -/
theorem skipped_line_noop (e : Env) (raw : String)
    (h : stripL raw.toList = [] ∨ startsHash (stripL raw.toList) = true ∨
      (stripL raw.toList).contains '=' = false) :
    processLine e raw = e := by
  have h' : stripL raw.data = [] ∨ startsHash (stripL raw.data) = true ∨
      (stripL raw.data).contains '=' = false := h
  have ha : acceptLine (stripL raw.data) = false := by
    rcases h' with h' | h' | h' <;> (unfold acceptLine; rw [h']) <;> simp
  unfold processLine
  exact if_neg (show ¬ acceptLine (stripL raw.data) = true by simp [ha])

/-- C6 (witness): a comment line, a blank line and an `=`-free line each
leave a concrete environment untouched. -/
theorem skipped_line_noop_witness :
    processLine [("A", "1")] "# note" = [("A", "1")] ∧
    processLine [("A", "1")] "   " = [("A", "1")] ∧
    processLine [("A", "1")] "MALFORMED" = [("A", "1")] :=
  ⟨skipped_line_noop [("A", "1")] "# note" (Or.inr (Or.inl (by decide))),
   skipped_line_noop [("A", "1")] "   " (Or.inl (by decide)),
   skipped_line_noop [("A", "1")] "MALFORMED" (Or.inr (Or.inr (by decide)))⟩

/-- C8: when the `.env` file is absent (the `env_file.exists()` guard is
false), the file-loading step is a silent no-op on the environment, and
execution proceeds to the derived-secret rule, which still runs. -/
theorem absent_env_file_noop (e : Env) :
    loadFile none e = e ∧ envSetup none e = deriveGoogleKey (deriveGoogleKey e) :=
  ⟨rfl, rfl⟩

/-- C9: immediately re-running the `GOOGLE_AI_STUDIO_API_KEY` derivation is
a no-op: the textually duplicated guard of `after.py` lines 19-20 never
changes the environment, because the first run either leaves everything
unchanged or makes `GOOGLE_AI_STUDIO_API_KEY` truthy. -/
theorem derivation_second_run_noop (e : Env) :
    deriveGoogleKey (deriveGoogleKey e) = deriveGoogleKey e := by
  by_cases hg : (!optTruthy (getEnv e "GOOGLE_AI_STUDIO_API_KEY")
      && optTruthy (getEnv e "GEMINI_API_KEY")) = true
  · have h2 : optTruthy (getEnv e "GEMINI_API_KEY") = true := by
      simp only [Bool.and_eq_true] at hg
      exact hg.2
    cases hm : getEnv e "GEMINI_API_KEY" with
    | none => rw [hm] at h2; simp [optTruthy] at h2
    | some s =>
        have hne : (s == "") = false := by
          rw [hm] at h2
          simpa [optTruthy] using h2
        have hgoog : getEnv (deriveGoogleKey e) "GOOGLE_AI_STUDIO_API_KEY"
            = some s := by
          rw [deriveGoogleKey_of_guard_true e hg, getEnv_envSet_self, hm]
          rfl
        exact deriveGoogleKey_of_guard_false _ (by simp [hgoog, optTruthy, hne])
  · have h0 : deriveGoogleKey e = e := deriveGoogleKey_of_guard_false e (by simpa using hg)
    rw [h0, h0]

/-- C10: the env-file parser splits an accepted line at the first `=` only
and strips leading and trailing whitespace from both key and value: for a
raw line of the shape `k ++ "=" ++ rest` where `k` contains no `=`, the
parsed key is `k` stripped and the parsed value is `rest` stripped, so the
value may itself contain further `=` characters and its inner whitespace
is preserved. -/
theorem split_at_first_eq_strips (k rest : String) (hk : '=' ∉ k.toList) :
    keyOf (k ++ "=" ++ rest) = pyStrip k ∧ valOf (k ++ "=" ++ rest) = pyStrip rest := by
  have htl : (k ++ "=" ++ rest).data = k.data ++ '=' :: rest.data := by
    rw [String.data_append, String.data_append, List.append_assoc]
    rfl
  have h := splitKeyL_of_no_eq k.data rest.data hk
  constructor
  · show String.mk (stripL (splitKeyL (stripL (k ++ "=" ++ rest).data)))
      = String.mk (stripL k.data)
    rw [htl, h.1]
  · show String.mk (stripL (splitValL (stripL (k ++ "=" ++ rest).data)))
      = String.mk (stripL rest.data)
    rw [htl, h.2]

/-- C10 (witness): the line `K = a=b` parses to key `K` and value `a=b`. -/
theorem split_at_first_eq_strips_witness :
    keyOf "K = a=b" = "K" ∧ valOf "K = a=b" = "a=b" := by
  have h := split_at_first_eq_strips "K " " a=b" (by decide)
  have e1 : ("K " ++ "=" ++ " a=b" : String) = "K = a=b" := by decide
  have e2 : pyStrip "K " = "K" := by decide
  have e3 : pyStrip " a=b" = "a=b" := by decide
  rw [e1, e2, e3] at h
  exact h

/-! ## Claim theorems: the inference callers -/

/-- C2: for every mocked gateway, those that raise included, the embedded
script issues exactly one inference call, naming the function
`generate_haiku` with a message list of exactly one user-role message, the
client is released exactly once on every exit path, and the script's
result mirrors the call's result. -/
theorem embedded_one_call_one_release {E : Type}
    (infer : InferenceCall → Except E String) :
    (afterEmbedded infer).1.calls = [haikuCall] ∧
    haikuCall.function_name = "generate_haiku" ∧
    haikuCall.messages.map Message.role = ["user"] ∧
    (afterEmbedded infer).1.releases = 1 ∧
    (afterEmbedded infer).2 = infer haikuCall := by
  have h2 : haikuCall.function_name = "generate_haiku" := rfl
  have h3 : haikuCall.messages.map Message.role = ["user"] := rfl
  cases h : infer haikuCall <;>
    simp [afterEmbedded, withClient, scriptBody, emptyTrace, h, h2, h3]

/-- C3: whenever `OPENAI_API_KEY` is unset or empty, the HTTP script prints
the hint naming the expected key format `sk-t0-<public_id>-<long_key>` and
terminates with exit status 1 without constructing an HTTP client or
sending any request. -/
theorem http_missing_key_early_exit (e : Env) (respond : ChatRequest → ChatResponse)
    (h : optTruthy (getEnv e "OPENAI_API_KEY") = false) :
    (afterHttp e respond).exitCode = 1 ∧
    (afterHttp e respond).printed
      = ["⚠️  Set OPENAI_API_KEY environment variable",
         "   Format: " ++ "sk-t0-<public_id>-<long_key>"] ∧
    (afterHttp e respond).clientsBuilt = 0 ∧
    (afterHttp e respond).requests = [] := by
  unfold afterHttp
  simp [h]

/-- C3 (witness): the early exit evaluated with `OPENAI_API_KEY` set to the
empty string. -/
theorem http_missing_key_early_exit_witness :
    (afterHttp [("OPENAI_API_KEY", "")] (fun _ => ⟨"x", 9⟩)).exitCode = 1 ∧
    (afterHttp [("OPENAI_API_KEY", "")] (fun _ => ⟨"x", 9⟩)).printed
      = ["⚠️  Set OPENAI_API_KEY environment variable",
         "   Format: " ++ "sk-t0-<public_id>-<long_key>"] ∧
    (afterHttp [("OPENAI_API_KEY", "")] (fun _ => ⟨"x", 9⟩)).clientsBuilt = 0 ∧
    (afterHttp [("OPENAI_API_KEY", "")] (fun _ => ⟨"x", 9⟩)).requests = [] :=
  http_missing_key_early_exit [("OPENAI_API_KEY", "")] (fun _ => ⟨"x", 9⟩) (by decide)

/-- C7 (counterexample): the spec's happy-path property as stated fails
when `OPENAI_API_KEY` is set to the empty string: the guard treats the
empty value as missing, so the script exits early and sends zero requests
rather than one. -/
theorem http_with_key_claim_false : ¬ claimHttpWithKey := by
  intro h
  have h1 := (h [("OPENAI_API_KEY", "")] (fun _ => ⟨"j", 7⟩) (by decide)).1
  exact absurd h1 (by decide)

/-- C7 (amended): whenever `OPENAI_API_KEY` is set to a non-empty value,
the script sends exactly one chat-completion request, whose model
identifier is `tensorzero::model_name::gemini_flash_lite` and whose
message list is a single user-role message, and it prints the response's
text content (printed line 3) followed by the total token count (printed
line 5). -/
theorem http_nonempty_key_request_and_output (e : Env)
    (respond : ChatRequest → ChatResponse)
    (h : optTruthy (getEnv e "OPENAI_API_KEY") = true) :
    (afterHttp e respond).requests = [jokeRequest] ∧
    jokeRequest.model = "tensorzero::model_name::gemini_flash_lite" ∧
    jokeRequest.messages.map Message.role = ["user"] ∧
    (afterHttp e respond).printed.get? 3 = some (respond jokeRequest).content ∧
    (afterHttp e respond).printed.get? 5
      = some ("✅ Tokens: " ++ toString (respond jokeRequest).totalTokens) := by
  unfold afterHttp
  simp [h, jokeRequest]

/-- C7 (witness): the amended claim evaluated with a concrete key and a
mocked response. -/
theorem http_nonempty_key_request_and_output_witness :
    (afterHttp [("OPENAI_API_KEY", "sk-t0-pub-key")]
      (fun _ => ⟨"funny", 17⟩)).requests = [jokeRequest] ∧
    jokeRequest.model = "tensorzero::model_name::gemini_flash_lite" ∧
    jokeRequest.messages.map Message.role = ["user"] ∧
    (afterHttp [("OPENAI_API_KEY", "sk-t0-pub-key")]
      (fun _ => ⟨"funny", 17⟩)).printed.get? 3 = some "funny" ∧
    (afterHttp [("OPENAI_API_KEY", "sk-t0-pub-key")]
      (fun _ => ⟨"funny", 17⟩)).printed.get? 5
      = some ("✅ Tokens: " ++ toString 17) :=
  http_nonempty_key_request_and_output [("OPENAI_API_KEY", "sk-t0-pub-key")]
    (fun _ => ⟨"funny", 17⟩) (by decide)

end Rak
